import Mathlib

/-!
Verification development for the autocomplete demo frontend
(src/frontend/src/App.tsx, plus the WebSocket variant of the same
component embedded in src/README.md).

The component state (React useState hooks), the fetchSuggestions
request lifecycle, the keyboard handler, the ping probe and the
debounce effect are embedded as explicit state-passing functions.
JavaScript number quirks that the handlers can actually hit
(modulo by zero giving NaN, out-of-range array indexing giving
undefined, falsiness of the empty string) are modelled explicitly.
-/

/-- JavaScript numbers as they occur in the selection-index arithmetic:
an integer, or NaN (produced by `x % 0`). -/
inductive JSNum where
  | num (i : Int)
  | nan
deriving DecidableEq, Repr

/-- JavaScript `+` on the numbers above. -/
def jsAdd : JSNum → JSNum → JSNum
  | JSNum.num a, JSNum.num b => JSNum.num (a + b)
  | _, _ => JSNum.nan

/-- JavaScript binary `-`. -/
def jsSub : JSNum → JSNum → JSNum
  | JSNum.num a, JSNum.num b => JSNum.num (a - b)
  | _, _ => JSNum.nan

/-- JavaScript `%`: truncated remainder; division by zero yields NaN. -/
def jsMod : JSNum → JSNum → JSNum
  | JSNum.num a, JSNum.num b => if b = 0 then JSNum.nan else JSNum.num (Int.tmod a b)
  | _, _ => JSNum.nan

/-- The ECMAScript white-space and line-terminator code points that
`String.prototype.trim` removes. -/
def jsWhitespace (c : Char) : Bool :=
  c == ' ' || c == '\t' || c == '\n' || c == '\r' ||
  c.toNat == 0x0B || c.toNat == 0x0C || c.toNat == 0xA0 || c.toNat == 0xFEFF ||
  c.toNat == 0x1680 || (0x2000 ≤ c.toNat && c.toNat ≤ 0x200A) ||
  c.toNat == 0x2028 || c.toNat == 0x2029 || c.toNat == 0x202F ||
  c.toNat == 0x205F || c.toNat == 0x3000

/-- JavaScript `input.trim()`. -/
def jsTrim (s : String) : String :=
  String.mk (((s.data.dropWhile jsWhitespace).reverse.dropWhile jsWhitespace).reverse)

/-- JavaScript array indexing `l[i]`: `undefined` (here `none`) for a
negative, NaN or out-of-range index. -/
def jsIndex (l : List String) : JSNum → Option String
  | JSNum.num k => if k < 0 then none else l[k.toNat]?
  | JSNum.nan => none

/-- A JSON scalar as it appears in the request bodies built by the app. -/
inductive JsonVal where
  | str (s : String)
  | num (q : ℚ)
deriving DecidableEq, Repr

/-- Body of the HTTP POST to /api/complete built in
src/frontend/src/App.tsx: JSON.stringify of text and system_prompt
(no generation parameters). -/
def completeRequestBody (input prompt : String) : List (String × JsonVal) :=
  [("text", JsonVal.str input), ("system_prompt", JsonVal.str prompt)]

/-- Body of the WebSocket message to /ws/complete built in the variant
of App.tsx embedded in src/README.md: text, system_prompt and the
fixed generation parameters. -/
def wsCompleteRequestBody (input prompt : String) : List (String × JsonVal) :=
  [("text", JsonVal.str input), ("system_prompt", JsonVal.str prompt),
   ("max_tokens", JsonVal.num 5), ("num_suggestions", JsonVal.num 3),
   ("temperature", JsonVal.num (1/10))]

/-- The component state: one field per useState hook of App.tsx that the
claims touch (times as rationals standing for the float milliseconds). -/
structure AppState where
  text : String
  suggestions : List String
  loading : Bool
  error : Option String
  systemPrompt : String
  latency : Option (ℚ × ℚ)
  selectedSuggestion : Option JSNum
  networkPingMs : Option ℚ
deriving DecidableEq, Repr

/-- Initial component state (every hook starts at its useState default;
the long default system prompt is abstracted as a parameter since no
claim depends on its content). -/
def initState (prompt : String) : AppState :=
  { text := ""
    suggestions := []
    loading := false
    error := none
    systemPrompt := prompt
    latency := none
    selectedSuggestion := none
    networkPingMs := none }

/-- The synchronous prefix of fetchSuggestions in App.tsx: the blank-input
early return clears the suggestion list and issues no request; otherwise
loading is set, the error cleared, and the request body is produced. -/
def fetchSuggestions (s : AppState) (input : String) :
    AppState × Option (List (String × JsonVal)) :=
  if jsTrim input = "" then
    ({ s with suggestions := [] }, none)
  else
    ({ s with loading := true, error := none },
     some (completeRequestBody input s.systemPrompt))

/-- The asynchronous completions of the component, applied to state in
the order they arrive on the event loop: the start of a fetch (the
synchronous prefix above), the resolution of a fetch (success with its
payload and the request's captured performance.now readings, or the
catch branch), and the ping probe resolving or erroring. -/
inductive Event where
  | fetchInvoke (input : String)
  | fetchSuccess (suggs : List String) (server : ℚ) (tStart tEnd : ℚ)
  | fetchFailure (msg : String)
  | pingResult (tStart tEnd : ℚ)
  | pingFailure
deriving DecidableEq, Repr

/-- State transition of one event, read off the corresponding handler
body in App.tsx (success: setSuggestions, setLatency, finally
setLoading(false); catch: setError, setSuggestions([]), finally
setLoading(false); ping: setNetworkPingMs). -/
def applyEvent (s : AppState) : Event → AppState
  | Event.fetchInvoke input => (fetchSuggestions s input).1
  | Event.fetchSuccess suggs server tStart tEnd =>
      { s with suggestions := suggs
               latency := some (tEnd - tStart, server)
               loading := false }
  | Event.fetchFailure msg =>
      { s with error := some msg
               suggestions := []
               loading := false }
  | Event.pingResult tStart tEnd =>
      { s with networkPingMs := some (tEnd - tStart) }
  | Event.pingFailure =>
      { s with networkPingMs := none }

/-- Run a finite arrival order of events. -/
def runEvents (s : AppState) (evs : List Event) : AppState :=
  evs.foldl applyEvent s

/-- The keys handleKeyDown in App.tsx distinguishes. -/
inductive Key where
  | tab
  | arrowDown
  | arrowUp
  | other
deriving DecidableEq, Repr

/-- handleKeyDown from App.tsx. Tab: guarded by suggestions.length > 0,
looks up suggestions[selectedSuggestion ?? 0] and, only if that value is
truthy (defined and non-empty), appends it to the text, clears the list
and resets the selection. Arrow keys: the functional setState updates,
with no empty-list guard. -/
def handleKeyDown (s : AppState) : Key → AppState
  | Key.tab =>
      if s.suggestions.length > 0 then
        match jsIndex s.suggestions (s.selectedSuggestion.getD (JSNum.num 0)) with
        | some sug =>
            if sug = "" then s
            else { s with text := s.text ++ sug
                          suggestions := []
                          selectedSuggestion := none }
        | none => s
      else s
  | Key.arrowDown =>
      let next :=
        match s.selectedSuggestion with
        | none => JSNum.num 0
        | some p => jsMod (jsAdd p (JSNum.num 1)) (JSNum.num s.suggestions.length)
      { s with selectedSuggestion := some next }
  | Key.arrowUp =>
      let next :=
        match s.selectedSuggestion with
        | none => JSNum.num ((s.suggestions.length : Int) - 1)
        | some p => jsMod (jsAdd (jsSub p (JSNum.num 1)) (JSNum.num s.suggestions.length))
                          (JSNum.num s.suggestions.length)
      { s with selectedSuggestion := some next }
  | Key.other => s

/-- The debounce effect state: the pending setTimeout, if any, with its
fire deadline and the text and system prompt captured by its closure. -/
structure DebounceState where
  pending : Option (ℚ × String × String)
deriving DecidableEq, Repr

/-- Process a time-ordered list of text/prompt change events through the
debounce effect of App.tsx. Each change clears the pending timeout and
schedules a new one 100 ms out capturing the current text and prompt;
a pending timeout whose deadline has passed by the time of the next
change fires first (emitting its captured text/prompt pair). -/
def debounceEdits : DebounceState → List (ℚ × String × String) →
    DebounceState × List (String × String)
  | st, [] => (st, [])
  | st, (t, txt, pr) :: rest =>
      match st.pending with
      | some (d, p) =>
          if d ≤ t then
            let r := debounceEdits ⟨some (t + 100, txt, pr)⟩ rest
            (r.1, p :: r.2)
          else
            debounceEdits ⟨some (t + 100, txt, pr)⟩ rest
      | none => debounceEdits ⟨some (t + 100, txt, pr)⟩ rest

/-- All timer firings produced by an edit sequence followed by
quiescence: the fires during the sequence, then the surviving pending
timer firing unopposed. -/
def debounceFires (edits : List (ℚ × String × String)) : List (String × String) :=
  let r := debounceEdits ⟨none⟩ edits
  r.2 ++ (match r.1.pending with
          | some (_, p) => [p]
          | none => [])

/-- The network request, if any, issued by one timer firing: the fired
callback calls fetchSuggestions with the captured text, whose blank-input
guard decides whether a request body is sent. -/
def debouncedCall (p : String × String) : Option (List (String × JsonVal)) :=
  (fetchSuggestions (initState p.2) p.1).2

/-- All network requests issued across an edit sequence and quiescence. -/
def issuedCalls (edits : List (ℚ × String × String)) :
    List (List (String × JsonVal)) :=
  (debounceFires edits).filterMap debouncedCall

/-- A base state used by the concrete scenarios below. -/
def st0 : AppState := initState "p"

/-- A concrete state with three suggestions and index 0 selected, used
by the concrete scenarios below. -/
def abcSelZero : AppState :=
  { st0 with suggestions := ["a", "b", "c"], selectedSuggestion := some (JSNum.num 0) }

/-- The debounce state left after a burst of edits that all arrive
before the previously pending timer fires: the last edit's timer is the
one still scheduled (used to characterize debounceEdits). -/
def lastSchedule (d : ℚ) (p : String × String) (rest : List (ℚ × String × String)) :
    DebounceState :=
  match rest.getLast? with
  | none => ⟨some (d, p)⟩
  | some e => ⟨some (e.1 + 100, e.2)⟩

/-! Theorems -/

lemma jsTrim_of_all_whitespace (input : String)
    (h : ∀ c ∈ input.data, jsWhitespace c = true) : jsTrim input = "" := by
  have h1 : input.data.dropWhile jsWhitespace = [] :=
    List.dropWhile_eq_nil_iff.mpr (by simpa using h)
  unfold jsTrim
  rw [h1]
  rfl

/-- C6: if the text is empty or whitespace-only when the debounce timer
fires, fetchSuggestions clears the suggestion list and issues no
network request. -/
theorem blank_input_clears_and_skips (s : AppState) (input : String)
    (h : ∀ c ∈ input.data, jsWhitespace c = true) :
    fetchSuggestions s input = ({ s with suggestions := [] }, none) := by
  unfold fetchSuggestions
  rw [if_pos (jsTrim_of_all_whitespace input h)]

/-- Witness for C6 at the one-space input. -/
theorem blank_input_clears_and_skips_example :
    fetchSuggestions st0 " " = ({ st0 with suggestions := [] }, none) :=
  blank_input_clears_and_skips st0 " " (by decide)

/-- C7: a failed request leaves the text unchanged, sets the error,
clears the suggestions and clears loading; a subsequent debounce cycle
that starts a request and succeeds ends with the error cleared. -/
theorem failure_sets_error_success_clears (s : AppState) (msg input : String)
    (sg : List String) (sv t1 t2 : ℚ) (h : jsTrim input ≠ "") :
    (applyEvent s (Event.fetchFailure msg)).text = s.text ∧
    (applyEvent s (Event.fetchFailure msg)).error = some msg ∧
    (applyEvent s (Event.fetchFailure msg)).suggestions = [] ∧
    (applyEvent s (Event.fetchFailure msg)).loading = false ∧
    (runEvents s [Event.fetchInvoke input, Event.fetchSuccess sg sv t1 t2]).error = none := by
  refine ⟨rfl, rfl, rfl, rfl, ?_⟩
  simp [runEvents, applyEvent, fetchSuggestions, if_neg h]

/-- Witness for C7 at concrete inputs. -/
theorem failure_sets_error_success_clears_example :
    (applyEvent st0 (Event.fetchFailure "Failed to fetch suggestions")).error
        = some "Failed to fetch suggestions" ∧
    (runEvents st0 [Event.fetchInvoke "hi", Event.fetchSuccess ["x"] 2 0 1]).error = none := by
  have h := failure_sets_error_success_clears st0 "Failed to fetch suggestions" "hi"
    ["x"] 2 0 1 (by decide)
  exact ⟨h.2.1, h.2.2.2.2⟩

/-- C9: the ping probe records exactly the elapsed clock time between
dispatch and acknowledgment, which is non-negative under a monotonic
clock, and no fetch-lifecycle event touches the recorded ping. -/
theorem ping_measurement_correct (s : AppState) (t1 t2 : ℚ) (h : t1 ≤ t2) :
    (applyEvent s (Event.pingResult t1 t2)).networkPingMs = some (t2 - t1) ∧
    0 ≤ t2 - t1 ∧
    (∀ input, (applyEvent s (Event.fetchInvoke input)).networkPingMs = s.networkPingMs) ∧
    (∀ sg sv u1 u2,
      (applyEvent s (Event.fetchSuccess sg sv u1 u2)).networkPingMs = s.networkPingMs) ∧
    (∀ msg, (applyEvent s (Event.fetchFailure msg)).networkPingMs = s.networkPingMs) := by
  refine ⟨rfl, by linarith, ?_, fun _ _ _ _ => rfl, fun _ => rfl⟩
  intro input
  show (fetchSuggestions s input).1.networkPingMs = s.networkPingMs
  unfold fetchSuggestions
  split <;> rfl

/-- Witness for C9 at concrete clock readings. -/
theorem ping_measurement_correct_example :
    (applyEvent st0 (Event.pingResult 3 10)).networkPingMs = some 7 ∧ (0 : ℚ) ≤ 10 - 3 := by
  have h := ping_measurement_correct st0 3 10 (by norm_num)
  refine ⟨?_, h.2.1⟩
  rw [h.1]
  norm_num

/-- C10: with a non-empty suggestion list, if the lookup at index
(selectedSuggestion ?? 0) yields no entry (out of range or NaN) or the
empty string, Tab changes nothing. -/
theorem tab_guarded_lookup (s : AppState)
    (h1 : s.suggestions ≠ [])
    (h2 : jsIndex s.suggestions (s.selectedSuggestion.getD (JSNum.num 0)) = none ∨
          jsIndex s.suggestions (s.selectedSuggestion.getD (JSNum.num 0)) = some "") :
    handleKeyDown s Key.tab = s := by
  have hl : s.suggestions.length > 0 := List.length_pos.mpr h1
  show (if s.suggestions.length > 0 then _ else _) = s
  rw [if_pos hl]
  rcases h2 with h | h <;> rw [h]
  rfl

/-- Witness for C10: out-of-range stored selection, Tab is a no-op. -/
theorem tab_guarded_lookup_example :
    handleKeyDown { st0 with suggestions := ["a"], selectedSuggestion := some (JSNum.num 5) }
        Key.tab
      = { st0 with suggestions := ["a"], selectedSuggestion := some (JSNum.num 5) } :=
  tab_guarded_lookup _ (by decide) (Or.inl (by decide))

/-- C2 counterexample: starting from the initial state, results [a,b,c]
arrive, ArrowUp selects index 2, then a replacement list [x] arrives;
the selection is NOT reset to null and is now out of range of the new
one-element list, contradicting the claimed reset-on-replacement. -/
theorem selection_not_reset_on_replacement :
    (applyEvent (handleKeyDown (applyEvent st0 (Event.fetchSuccess ["a", "b", "c"] 0 0 0))
          Key.arrowUp)
        (Event.fetchSuccess ["x"] 0 0 0)).selectedSuggestion = some (JSNum.num 2) ∧
    (applyEvent (handleKeyDown (applyEvent st0 (Event.fetchSuccess ["a", "b", "c"] 0 0 0))
          Key.arrowUp)
        (Event.fetchSuccess ["x"] 0 0 0)).suggestions = ["x"] ∧
    some (JSNum.num 2) ≠ (none : Option JSNum) ∧
    ¬ ((2 : Int) < (["x"] : List String).length) := by
  refine ⟨by decide, by decide, by decide, by decide⟩

/-- C2 amended: replacing the suggestion list (arriving results, the
blank-input clear, or the failure clear) leaves SelectionIndex
unchanged; only acceptance resets it, so a stored index can survive out
of range of the new list. -/
theorem replacement_preserves_selection (s : AppState) (input : String)
    (sg : List String) (sv t1 t2 : ℚ) (msg : String) :
    (applyEvent s (Event.fetchSuccess sg sv t1 t2)).selectedSuggestion = s.selectedSuggestion ∧
    (applyEvent s (Event.fetchInvoke input)).selectedSuggestion = s.selectedSuggestion ∧
    (applyEvent s (Event.fetchFailure msg)).selectedSuggestion = s.selectedSuggestion := by
  refine ⟨rfl, ?_, rfl⟩
  show (fetchSuggestions s input).1.selectedSuggestion = s.selectedSuggestion
  unfold fetchSuggestions
  split <;> rfl

/-- C3 counterexample: the HTTP variant under src/frontend sends a body
containing only text and system_prompt; none of max_tokens,
num_suggestions or temperature is present. -/
theorem fetch_body_lacks_generation_params :
    (fetchSuggestions st0 "hello").2 = some (completeRequestBody "hello" "p") ∧
    (completeRequestBody "hello" "p").lookup "max_tokens" = none ∧
    (completeRequestBody "hello" "p").lookup "num_suggestions" = none ∧
    (completeRequestBody "hello" "p").lookup "temperature" = none := by
  refine ⟨by decide, by decide, by decide, by decide⟩

/-- C3 amended: the HTTP variant's request body carries exactly the text
and system prompt; the WebSocket variant embedded in the README
additionally carries max_tokens = 5, num_suggestions = 3 and
temperature = 0.1. -/
theorem request_bodies_characterization (input prompt : String) :
    completeRequestBody input prompt
      = [("text", JsonVal.str input), ("system_prompt", JsonVal.str prompt)] ∧
    (wsCompleteRequestBody input prompt).lookup "max_tokens" = some (JsonVal.num 5) ∧
    (wsCompleteRequestBody input prompt).lookup "num_suggestions" = some (JsonVal.num 3) ∧
    (wsCompleteRequestBody input prompt).lookup "temperature" = some (JsonVal.num (1/10)) ∧
    (wsCompleteRequestBody input prompt).lookup "text" = some (JsonVal.str input) ∧
    (wsCompleteRequestBody input prompt).lookup "system_prompt" = some (JsonVal.str prompt) := by
  refine ⟨rfl, rfl, rfl, rfl, rfl, rfl⟩

/-- C5 counterexample: a non-empty suggestion list whose first entry is
the empty string; Tab leaves the whole state unchanged, in particular
the list is NOT cleared as the claim requires. -/
theorem tab_noop_on_empty_string_suggestion :
    handleKeyDown { st0 with text := "x", suggestions := [""] } Key.tab
      = { st0 with text := "x", suggestions := [""] } ∧
    ({ st0 with text := "x", suggestions := [""] } : AppState).suggestions ≠ [] := by
  refine ⟨by decide, by decide⟩

/-- C5 amended: when the entry looked up at index
(selectedSuggestion ?? 0) exists and is non-empty, Tab appends it to the
text, clears the list and resets the selection; Tab on an empty list
changes nothing (and a missing or empty looked-up entry also leaves the
state unchanged). -/
theorem tab_accept_behavior (s : AppState) :
    (∀ sug, jsIndex s.suggestions (s.selectedSuggestion.getD (JSNum.num 0)) = some sug →
      sug ≠ "" → 0 < s.suggestions.length →
      handleKeyDown s Key.tab
        = { s with text := s.text ++ sug, suggestions := [], selectedSuggestion := none }) ∧
    (s.suggestions = [] → handleKeyDown s Key.tab = s) := by
  constructor
  · intro sug hidx hne hlen
    show (if s.suggestions.length > 0 then _ else _) = _
    rw [if_pos hlen, hidx]
    show (if sug = "" then s else _) = _
    rw [if_neg hne]
  · intro h
    show (if s.suggestions.length > 0 then _ else _) = s
    rw [h]
    rfl

/-- Witness for C5: accepting "world" onto "hello ", and Tab on an empty
list as a no-op. -/
theorem tab_accept_behavior_example :
    handleKeyDown { st0 with text := "hello ", suggestions := ["world"] } Key.tab
      = { st0 with text := "hello world", suggestions := [], selectedSuggestion := none } ∧
    handleKeyDown st0 Key.tab = st0 := by
  constructor
  · exact (tab_accept_behavior { st0 with text := "hello ", suggestions := ["world"] }).1
      "world" (by decide) (by decide) (by decide)
  · exact (tab_accept_behavior st0).2 rfl

/-- C4 counterexample: on the empty suggestion list with no selection,
ArrowDown is NOT a no-op — it sets the selection to index 0. -/
theorem arrowDown_not_noop_on_empty :
    st0.suggestions = [] ∧ st0.selectedSuggestion = none ∧
    (handleKeyDown st0 Key.arrowDown).selectedSuggestion = some (JSNum.num 0) ∧
    some (JSNum.num 0) ≠ st0.selectedSuggestion := by
  refine ⟨rfl, rfl, by decide, by decide⟩

/-- C4 amended: ArrowDown maps Unselected to Selected(0) and ArrowUp
maps Unselected to Selected(n-1) REGARDLESS of n (so n = 0 yields
Selected(0) and Selected(-1), not a no-op); for n > 0 a numeric
selection i in range wraps as (i+1) mod n and (i-1+n) mod n; for n = 0 a
numeric selection becomes NaN (the JavaScript x % 0). -/
theorem arrow_key_transitions (s : AppState) :
    (s.selectedSuggestion = none →
      (handleKeyDown s Key.arrowDown).selectedSuggestion = some (JSNum.num 0) ∧
      (handleKeyDown s Key.arrowUp).selectedSuggestion
        = some (JSNum.num ((s.suggestions.length : Int) - 1))) ∧
    (∀ i : Int, s.selectedSuggestion = some (JSNum.num i) → 0 ≤ i →
      i < (s.suggestions.length : Int) →
      (handleKeyDown s Key.arrowDown).selectedSuggestion
        = some (JSNum.num ((i + 1) % (s.suggestions.length : Int))) ∧
      (handleKeyDown s Key.arrowUp).selectedSuggestion
        = some (JSNum.num ((i - 1 + (s.suggestions.length : Int))
            % (s.suggestions.length : Int)))) ∧
    (s.suggestions.length = 0 → ∀ i : Int, s.selectedSuggestion = some (JSNum.num i) →
      (handleKeyDown s Key.arrowDown).selectedSuggestion = some JSNum.nan ∧
      (handleKeyDown s Key.arrowUp).selectedSuggestion = some JSNum.nan) := by
  refine ⟨?_, ?_, ?_⟩
  · intro h
    constructor <;> simp [handleKeyDown, h]
  · intro i hsel h0 hlt
    have hn : (s.suggestions.length : Int) ≠ 0 := by omega
    constructor
    · simp only [handleKeyDown, hsel, jsAdd, jsMod, if_neg hn]
      rw [Int.tmod_eq_emod (by omega) (by omega)]
    · simp only [handleKeyDown, hsel, jsAdd, jsSub, jsMod, if_neg hn]
      rw [Int.tmod_eq_emod (by omega) (by omega)]
  · intro h0 i hsel
    constructor <;> simp [handleKeyDown, hsel, jsAdd, jsSub, jsMod, h0]

/-- Witness for C4 on the spec's [a,b,c] scenario: ArrowDown from
Unselected gives 0, ArrowDown from 0 gives 1, ArrowUp from 0 wraps
to 2. -/
theorem arrow_key_transitions_example :
    (handleKeyDown { st0 with suggestions := ["a", "b", "c"] }
        Key.arrowDown).selectedSuggestion = some (JSNum.num 0) ∧
    (handleKeyDown abcSelZero Key.arrowDown).selectedSuggestion = some (JSNum.num 1) ∧
    (handleKeyDown abcSelZero Key.arrowUp).selectedSuggestion = some (JSNum.num 2) := by
  refine ⟨((arrow_key_transitions _).1 rfl).1, ?_, ?_⟩
  · have h := (((arrow_key_transitions abcSelZero).2.1) 0 rfl (by norm_num) (by decide)).1
    simpa using h
  · have h := (((arrow_key_transitions abcSelZero).2.1) 0 rfl (by norm_num) (by decide)).2
    simpa using h

/-- C1 counterexample: two requests in flight (invoked in order), the
later-minted one resolves first with payload [later]; when the
earlier-minted request's resolution arrives afterwards it is NOT
discarded — it overwrites the visible suggestions with [earlier]; and a
stale failure likewise arrives last and overwrites the visible error and
suggestion state. There is no token check in the code. -/
theorem stale_response_overwrites :
    (runEvents st0 [Event.fetchInvoke "a", Event.fetchInvoke "ab",
        Event.fetchSuccess ["later"] 1 0 1,
        Event.fetchSuccess ["earlier"] 1 0 2]).suggestions = ["earlier"] ∧
    (["earlier"] : List String) ≠ ["later"] ∧
    (runEvents st0 [Event.fetchInvoke "a", Event.fetchInvoke "ab",
        Event.fetchSuccess ["later"] 1 0 1,
        Event.fetchFailure "Failed to fetch suggestions"]).error
      = some "Failed to fetch suggestions" ∧
    (runEvents st0 [Event.fetchInvoke "a", Event.fetchInvoke "ab",
        Event.fetchSuccess ["later"] 1 0 1,
        Event.fetchFailure "Failed to fetch suggestions"]).suggestions = [] := by
  refine ⟨by decide, by decide, by decide, by decide⟩

/-- C1 amended: the code performs no staleness suppression; resolutions
are applied to visible state in arrival order, so whichever resolution
arrives last determines the visible suggestions (and a last-arriving
failure sets the error and clears the suggestions), regardless of which
request was minted last. -/
theorem suggestions_last_arrival_wins (s : AppState) (pre : List Event)
    (sg : List String) (sv t1 t2 : ℚ) (msg : String) :
    (runEvents s (pre ++ [Event.fetchSuccess sg sv t1 t2])).suggestions = sg ∧
    (runEvents s (pre ++ [Event.fetchFailure msg])).suggestions = [] ∧
    (runEvents s (pre ++ [Event.fetchFailure msg])).error = some msg := by
  refine ⟨?_, ?_, ?_⟩ <;> simp [runEvents, List.foldl_append, applyEvent]

lemma debounceEdits_within_window (rest : List (ℚ × String × String)) :
    ∀ (d : ℚ) (p : String × String),
      (∀ e ∈ rest.head?, e.1 < d) →
      List.Chain' (fun a b => b.1 < a.1 + 100) rest →
      debounceEdits ⟨some (d, p)⟩ rest = (lastSchedule d p rest, []) := by
  induction rest with
  | nil => intro d p _ _; rfl
  | cons e rest ih =>
    intro d p hh hc
    obtain ⟨t, txt, pr⟩ := e
    have ht : t < d := by simpa using hh
    rw [List.chain'_cons'] at hc
    show (if d ≤ t then
            ((debounceEdits ⟨some (t + 100, txt, pr)⟩ rest).1,
              p :: (debounceEdits ⟨some (t + 100, txt, pr)⟩ rest).2)
          else debounceEdits ⟨some (t + 100, txt, pr)⟩ rest) = _
    rw [if_neg (not_le.mpr ht), ih (t + 100) (txt, pr) hc.1 hc.2]
    congr 1
    cases rest with
    | nil => rfl
    | cons y ys =>
      have hg : (y :: ys).getLast? = some ((y :: ys).getLast (List.cons_ne_nil y ys)) :=
        List.getLast?_eq_getLast _ _
      simp [lastSchedule, List.getLast?_cons_cons, hg]

/-- C8 amended: for a non-empty burst of text/prompt edits in which each
edit arrives before the previously scheduled timer's deadline, exactly
one debounced fetch fires, with the trailing edit's text and prompt; it
issues a network request exactly when that trailing text is non-blank,
so the window yields at most one network call (zero on blank trailing
text). -/
theorem debounce_single_fire (t : ℚ) (p : String × String)
    (rest : List (ℚ × String × String))
    (hc : List.Chain' (fun a b => b.1 < a.1 + 100) ((t, p) :: rest)) :
    ∀ last ∈ ((t, p) :: rest).getLast?,
      debounceFires ((t, p) :: rest) = [last.2] ∧
      issuedCalls ((t, p) :: rest) = (debouncedCall last.2).toList := by
  intro last hlast
  rw [List.chain'_cons'] at hc
  have key : debounceEdits ⟨none⟩ ((t, p) :: rest)
      = (lastSchedule (t + 100) p rest, []) := by
    show debounceEdits ⟨some (t + 100, p)⟩ rest = _
    exact debounceEdits_within_window rest (t + 100) p hc.1 hc.2
  have hsched : ∃ d2, lastSchedule (t + 100) p rest = ⟨some (d2, last.2)⟩ := by
    cases rest with
    | nil =>
      have hl : (t, p) = last := by simpa using hlast
      exact ⟨t + 100, by simp [lastSchedule, ← hl]⟩
    | cons y ys =>
      rw [List.getLast?_cons_cons] at hlast
      have h2 : (y :: ys).getLast? = some last := Option.mem_def.mp hlast
      exact ⟨last.1 + 100, by simp [lastSchedule, h2]⟩
  obtain ⟨d2, hd⟩ := hsched
  constructor
  · unfold debounceFires
    rw [key, hd]
    rfl
  · unfold issuedCalls debounceFires
    rw [key, hd]
    cases hdc : debouncedCall last.2 <;> simp [hdc]

/-- Witness for C8: two edits 50 ms apart; the sole fire carries the
trailing text "ab" and the sole network request is built from it. -/
theorem debounce_single_fire_example :
    debounceFires [(0, "a", "p"), (50, "ab", "p")] = [("ab", "p")] ∧
    issuedCalls [(0, "a", "p"), (50, "ab", "p")] = [completeRequestBody "ab" "p"] := by
  have h := debounce_single_fire 0 ("a", "p") [(50, "ab", "p")]
    (List.chain'_cons.mpr ⟨by norm_num, List.chain'_singleton _⟩)
    (50, "ab", "p") (by rfl)
  refine ⟨h.1, ?_⟩
  rw [h.2]
  rfl

/-- C8 counterexample: two edits within one window whose trailing text
is the single space; the window expires with that text but, contrary to
the claim that exactly one network call is issued with the trailing
text, NO network call is issued (the blank-input guard skips it). -/
theorem debounce_blank_trailing_no_call :
    debounceFires [(0, "a", "p"), (50, " ", "p")] = [(" ", "p")] ∧
    issuedCalls [(0, "a", "p"), (50, " ", "p")] = [] ∧
    ((50 : ℚ) < 0 + 100) := by
  refine ⟨?_, ?_, by norm_num⟩
  · norm_num [debounceFires, debounceEdits]
  · norm_num [issuedCalls, debounceFires, debounceEdits, debouncedCall, fetchSuggestions]
    decide
